import Mathlib

/-!
# Verification of the prost-reflect dynamic field store and serde range checks

Shallow embedding of `src/prost-reflect/src/dynamic/fields.rs` and the
duration/timestamp range checks from `src/prost-reflect/src/dynamic/serde/mod.rs`.

The `Value` type of the source is treated abstractly (type parameter `V`): the
field store consults values only through the descriptor capability predicates
(`is_default_value`, `is_valid`) and stores them opaquely.  Likewise the raw
undecoded wire entries (`UnknownField`) are an opaque type parameter `U`.

The `BTreeMap<u32, ValueOrUnknown>` of the source is embedded as an association
list `List (Nat × ValueOrUnknown V U)` whose keys are kept strictly ascending
(the `BTreeMap` ordering invariant, expressed as the predicate `sortedKeys`
where a claim needs it); `insertKey` mirrors `BTreeMap::insert` (replace or
insert at the ordered position) and `eraseKey` mirrors `BTreeMap::remove`.
-/

namespace ProstReflect

/-- Member field numbers of a oneof group.  Mirrors `OneofDescriptorRef`:
`clear_oneof_fields` consumes only the `number()` of each member descriptor
returned by `oneof_desc.fields()`, so the oneof is embedded as that list of
numbers. -/
structure OneofDescriptorRef where
  field_numbers : List Nat
deriving DecidableEq

/-- The descriptor capability consumed by the store (trait `FieldDescriptorLike`
in `fields.rs`), restricted to the members the store operations read:
`number`, `default_value`, `is_default_value`, `is_valid`, `containing_oneof`
and `supports_presence`.  The remaining trait members (`kind`, `is_group`,
`is_list`, `is_map`, `is_packed`, `is_packable`) are never consumed by the
store operations verified here and are omitted. -/
structure FieldDescriptorLike (V : Type) where
  number : Nat
  default_value : V
  is_default_value : V → Bool
  is_valid : V → Bool
  containing_oneof : Option OneofDescriptorRef
  supports_presence : Bool

/-- Default trait method `FieldDescriptorLike::has` (fields.rs lines 27-29):
`self.supports_presence() || !self.is_default_value(value)`. -/
def FieldDescriptorLike.has {V : Type} (desc : FieldDescriptorLike V) (value : V) : Bool :=
  desc.supports_presence || !(desc.is_default_value value)

/-- An extension descriptor (`ExtensionDescriptorRef`).  Its
`FieldDescriptorLike` impl (fields.rs lines 222-270) forwards everything and
returns `None` for `containing_oneof` (lines 239-241). -/
structure ExtensionDescriptorRef (V : Type) where
  number : Nat
  default_value : V
  is_default_value : V → Bool
  is_valid : V → Bool
  supports_presence : Bool

/-- The `impl FieldDescriptorLike for ExtensionDescriptorRef`: same data with
`containing_oneof := none`, per fields.rs lines 239-241. -/
def ExtensionDescriptorRef.toFieldDescriptorLike {V : Type} (e : ExtensionDescriptorRef V) :
    FieldDescriptorLike V :=
  ⟨e.number, e.default_value, e.is_default_value, e.is_valid, none, e.supports_presence⟩

/-- `enum ValueOrUnknown` (fields.rs lines 38-42). -/
inductive ValueOrUnknown (V U : Type) where
  | value (v : V)
  | unknown (unknowns : List U)

/-- Lookup in the key-ordered map, mirroring `BTreeMap::get`. -/
def lookupKey {α : Type} (k : Nat) : List (Nat × α) → Option α
  | [] => none
  | (k', v) :: rest => if k' = k then some v else lookupKey k rest

/-- Insert-or-replace in the key-ordered map, mirroring `BTreeMap::insert`. -/
def insertKey {α : Type} (k : Nat) (v : α) : List (Nat × α) → List (Nat × α)
  | [] => [(k, v)]
  | (k', v') :: rest =>
    if k < k' then (k, v) :: (k', v') :: rest
    else if k = k' then (k, v) :: rest
    else (k', v') :: insertKey k v rest

/-- Removal from the key-ordered map, mirroring `BTreeMap::remove`.  On a map
with strictly ascending (hence duplicate-free) keys this removes exactly the
entry with key `k`. -/
def eraseKey {α : Type} (k : Nat) (l : List (Nat × α)) : List (Nat × α) :=
  l.filter fun e => e.1 != k

/-- The `BTreeMap` ordering invariant: keys strictly ascending. -/
def sortedKeys {α : Type} (l : List (Nat × α)) : Prop :=
  l.Pairwise fun a b => a.1 < b.1

instance {α : Type} (l : List (Nat × α)) : Decidable (sortedKeys l) :=
  inferInstanceAs (Decidable (l.Pairwise _))

/-- `struct DynamicMessageFieldSet` (fields.rs lines 33-36): an ordered map
from field number to `ValueOrUnknown`. -/
structure DynamicMessageFieldSet (V U : Type) where
  fields : List (Nat × ValueOrUnknown V U)

namespace DynamicMessageFieldSet

variable {V U : Type}

/-- `get_value` (fields.rs lines 51-56). -/
def get_value (s : DynamicMessageFieldSet V U) (number : Nat) : Option V :=
  match lookupKey number s.fields with
  | some (ValueOrUnknown.value value) => some value
  | some (ValueOrUnknown.unknown _) => none
  | none => none

/-- `has` (fields.rs lines 58-62). -/
def has (s : DynamicMessageFieldSet V U) (desc : FieldDescriptorLike V) : Bool :=
  match get_value s desc.number with
  | some value => desc.has value
  | none => false

/-- `get` (fields.rs lines 64-69).  The returned `Cow` is collapsed to the
underlying value; `get` takes `&self` and performs no mutation. -/
def get (s : DynamicMessageFieldSet V U) (desc : FieldDescriptorLike V) : V :=
  match get_value s desc.number with
  | some value => value
  | none => desc.default_value

/-- `clear` (fields.rs lines 124-126). -/
def clear (s : DynamicMessageFieldSet V U) (desc : FieldDescriptorLike V) :
    DynamicMessageFieldSet V U :=
  ⟨eraseKey desc.number s.fields⟩

/-- `clear_oneof_fields` (fields.rs lines 100-108): for each member of the
containing oneof other than `desc` itself, `clear` it (which consumes only the
member's number). -/
def clear_oneof_fields (s : DynamicMessageFieldSet V U) (desc : FieldDescriptorLike V) :
    DynamicMessageFieldSet V U :=
  match desc.containing_oneof with
  | some oneof_desc =>
    ⟨oneof_desc.field_numbers.foldl
      (fun fs n => if n ≠ desc.number then eraseKey n fs else fs) s.fields⟩
  | none => s

/-- `set` (fields.rs lines 87-98).  The `debug_assert!(desc.is_valid(&value))`
is compiled out of release builds and does not alter the state transition. -/
def set (s : DynamicMessageFieldSet V U) (desc : FieldDescriptorLike V) (value : V) :
    DynamicMessageFieldSet V U :=
  let s' := clear_oneof_fields s desc
  ⟨insertKey desc.number (ValueOrUnknown.value value) s'.fields⟩

/-- `get_mut` (fields.rs lines 71-85).  Returned as the post-state paired with
the value the returned `&mut Value` handle initially points at. -/
def get_mut (s : DynamicMessageFieldSet V U) (desc : FieldDescriptorLike V) :
    DynamicMessageFieldSet V U × V :=
  let s' := clear_oneof_fields s desc
  match lookupKey desc.number s'.fields with
  | some (ValueOrUnknown.value value) => (s', value)
  | some (ValueOrUnknown.unknown _) =>
    (⟨insertKey desc.number (ValueOrUnknown.value desc.default_value) s'.fields⟩,
      desc.default_value)
  | none =>
    (⟨insertKey desc.number (ValueOrUnknown.value desc.default_value) s'.fields⟩,
      desc.default_value)

/-- `add_unknown` (fields.rs lines 110-122).  `none` models the
`panic!("expected no field to be found with number ...")` branch. -/
def add_unknown (s : DynamicMessageFieldSet V U) (number : Nat) (unknown : U) :
    Option (DynamicMessageFieldSet V U) :=
  match lookupKey number s.fields with
  | some (ValueOrUnknown.value _) => none
  | some (ValueOrUnknown.unknown unknowns) =>
    some ⟨insertKey number (ValueOrUnknown.unknown (unknowns ++ [unknown])) s.fields⟩
  | none => some ⟨insertKey number (ValueOrUnknown.unknown [unknown]) s.fields⟩

/-- `clear_all` (fields.rs lines 158-160). -/
def clear_all (_s : DynamicMessageFieldSet V U) : DynamicMessageFieldSet V U :=
  ⟨[]⟩

/-- Observer: the entry at `n` is a `Decoded` (`ValueOrUnknown::Value`) entry. -/
def decodedAt (s : DynamicMessageFieldSet V U) (n : Nat) : Bool :=
  match lookupKey n s.fields with
  | some (ValueOrUnknown.value _) => true
  | _ => false

/-- Observer: the current `RawUnknown` list at `n` (empty when the entry is
absent or `Decoded`). -/
def rawAt (s : DynamicMessageFieldSet V U) (n : Nat) : List U :=
  match lookupKey n s.fields with
  | some (ValueOrUnknown.unknown unknowns) => unknowns
  | _ => []

end DynamicMessageFieldSet

/-- `enum ValueAndDescriptor` (fields.rs lines 44-48): the items yielded by
`iter`. -/
inductive ValueAndDescriptor (V U : Type) where
  | field (value : V) (desc : FieldDescriptorLike V)
  | extension (value : V) (desc : ExtensionDescriptorRef V)
  | unknown (number : Nat) (unknowns : List U)

/-- The field number an `iter` item reports (the descriptor's number for the
decoded variants, the stored key for the unknown variant). -/
def ValueAndDescriptor.entryNumber {V U : Type} : ValueAndDescriptor V U → Nat
  | ValueAndDescriptor.field _ desc => desc.number
  | ValueAndDescriptor.extension _ desc => desc.number
  | ValueAndDescriptor.unknown number _ => number

/-- `MessageDescriptorRef` as consumed by `iter`: the declared fields and
extensions of one message type.  `get_field` / `get_extension` look a
descriptor up by its number, as the external descriptor layer does. -/
structure MessageDescriptorRef (V : Type) where
  fieldList : List (FieldDescriptorLike V)
  extensionList : List (ExtensionDescriptorRef V)

/-- `MessageDescriptorRef::get_field(number)`: the declared field with that
number, if any. -/
def MessageDescriptorRef.get_field {V : Type} (m : MessageDescriptorRef V) (number : Nat) :
    Option (FieldDescriptorLike V) :=
  m.fieldList.find? fun d => d.number == number

/-- `MessageDescriptorRef::get_extension(number)`: the known extension with
that number, if any. -/
def MessageDescriptorRef.get_extension {V : Type} (m : MessageDescriptorRef V) (number : Nat) :
    Option (ExtensionDescriptorRef V) :=
  m.extensionList.find? fun e => e.number == number

/-- One step of the `filter_map` closure inside `iter` (fields.rs lines
134-155).  The outer `none` models the
`panic!("no field found with number ...")` branch; `some none` models a
filtered-out entry; `some (some item)` a yielded item. -/
def iterEntry {V U : Type} (message : MessageDescriptorRef V) (number : Nat) :
    ValueOrUnknown V U → Option (Option (ValueAndDescriptor V U))
  | ValueOrUnknown.value v =>
    match message.get_field number with
    | some field =>
      if field.has v then some (some (ValueAndDescriptor.field v field)) else some none
    | none =>
      match message.get_extension number with
      | some ext =>
        if ext.toFieldDescriptorLike.has v then
          some (some (ValueAndDescriptor.extension v ext))
        else some none
      | none => none
  | ValueOrUnknown.unknown unknowns =>
    some (some (ValueAndDescriptor.unknown number unknowns))

/-- The item `iterEntry` yields when no panic occurs (helper for stating
what a successful iteration contains). -/
def iterItem {V U : Type} (message : MessageDescriptorRef V)
    (p : Nat × ValueOrUnknown V U) : Option (ValueAndDescriptor V U) :=
  (iterEntry message p.1 p.2).join

namespace DynamicMessageFieldSet

/-- The collected result of `iter` over a list of entries: `none` when the
`panic!` branch is hit on any entry, otherwise the yielded items in order. -/
def iterAux {V U : Type} (message : MessageDescriptorRef V) :
    List (Nat × ValueOrUnknown V U) → Option (List (ValueAndDescriptor V U))
  | [] => some []
  | (number, entry) :: rest =>
    match iterEntry message number entry with
    | none => none
    | some none => iterAux message rest
    | some (some item) => (iterAux message rest).map (item :: ·)

/-- `iter` (fields.rs lines 128-156): the lazy iterator collected into a
list; `none` models the `panic!` on a number matching neither a field nor an
extension.  `iter` takes `&self`: its type has no store output, so the store
is unchanged by iteration. -/
def iter {V U : Type} (s : DynamicMessageFieldSet V U) (message : MessageDescriptorRef V) :
    Option (List (ValueAndDescriptor V U)) :=
  iterAux message s.fields

end DynamicMessageFieldSet

/-! ## Concrete instances used by the witness and counterexample theorems -/

/-- A oneof group with member numbers 1 and 2. -/
def exOneof : OneofDescriptorRef := ⟨[1, 2]⟩

/-- Oneof member field number 1 (explicit presence). -/
def exF1 : FieldDescriptorLike Nat :=
  ⟨1, 0, fun v => v == 0, fun _ => true, some exOneof, true⟩

/-- Oneof member field number 2 (explicit presence). -/
def exF2 : FieldDescriptorLike Nat :=
  ⟨2, 0, fun v => v == 0, fun _ => true, some exOneof, true⟩

/-- A plain field, number 3, implicit presence, default 0. -/
def exF3 : FieldDescriptorLike Nat :=
  ⟨3, 0, fun v => v == 0, fun _ => true, none, false⟩

/-- An extension descriptor with number 5. -/
def exExt : ExtensionDescriptorRef Nat := ⟨5, 0, fun v => v == 0, fun _ => true, true⟩

/-- A store with decoded entries at 2 and 3 and a raw-unknown entry at 7. -/
def exStore : DynamicMessageFieldSet Nat Nat :=
  ⟨[(2, ValueOrUnknown.value 6), (3, ValueOrUnknown.value 4), (7, ValueOrUnknown.unknown [9])]⟩

/-- A store whose only entry is a raw-unknown list at number 1. -/
def exStoreRaw : DynamicMessageFieldSet Nat Nat := ⟨[(1, ValueOrUnknown.unknown [7])]⟩

/-- An explicit-presence descriptor for number 1, outside any oneof. -/
def exDescRaw : FieldDescriptorLike Nat :=
  ⟨1, 0, fun v => v == 0, fun _ => true, none, true⟩

/-- A message descriptor declaring fields 1, 2, 3 and extension 5. -/
def exMsg : MessageDescriptorRef Nat := ⟨[exF1, exF2, exF3], [exExt]⟩

/-! ## Duration and timestamp range checks (serde/mod.rs) -/

/-- `MAX_DURATION_SECONDS` (serde/mod.rs line 176). -/
def MAX_DURATION_SECONDS : Nat := 315576000000

/-- `MAX_DURATION_NANOS` (serde/mod.rs line 177). -/
def MAX_DURATION_NANOS : Nat := 999999999

/-- `MIN_TIMESTAMP_SECONDS` (serde/mod.rs line 179). -/
def MIN_TIMESTAMP_SECONDS : Int := -62135596800

/-- `MAX_TIMESTAMP_SECONDS` (serde/mod.rs line 180). -/
def MAX_TIMESTAMP_SECONDS : Int := 253402300799

/-- `prost_types::Duration`: `seconds: i64`, `nanos: i32`, embedded over `Int`.
`Int.natAbs` is the exact absolute value, matching `i64::unsigned_abs` /
`i32::unsigned_abs` (exact even at `i64::MIN` / `i32::MIN`). -/
structure Duration where
  seconds : Int
  nanos : Int
deriving DecidableEq

/-- `prost_types::Timestamp`: `seconds: i64`, `nanos: i32`. -/
structure Timestamp where
  seconds : Int
  nanos : Int
deriving DecidableEq

/-- `check_duration` (serde/mod.rs lines 205-213). -/
def check_duration (duration : Duration) : Except String Unit :=
  if duration.seconds.natAbs > MAX_DURATION_SECONDS
      || duration.nanos.natAbs > MAX_DURATION_NANOS then
    Except.error "duration out of range"
  else
    Except.ok ()

/-- `check_timestamp` (serde/mod.rs lines 215-221). -/
def check_timestamp (timestamp : Timestamp) : Except String Unit :=
  if timestamp.seconds < MIN_TIMESTAMP_SECONDS
      || MAX_TIMESTAMP_SECONDS < timestamp.seconds then
    Except.error "timestamp out of range"
  else
    Except.ok ()

/-! ## Claim C7 and C8 theorems -/

/-- C7: the duration range check succeeds iff `|seconds| ≤ 315576000000` and
`|nanos| ≤ 999999999`, the absolute values computed exactly (also at
`i64::MIN = -2^63` and `i32::MIN = -2^31`, covered by the concrete conjuncts);
`{seconds := 315576000000, nanos := 999999999}` passes and
`{seconds := 315576000001, nanos := 0}` fails with a range error. -/
theorem check_duration_range_spec (s n : Int) :
    (check_duration ⟨s, n⟩ = Except.ok () ↔
      s.natAbs ≤ 315576000000 ∧ n.natAbs ≤ 999999999) ∧
    check_duration ⟨315576000000, 999999999⟩ = Except.ok () ∧
    check_duration ⟨315576000001, 0⟩ = Except.error "duration out of range" ∧
    check_duration ⟨-(2 ^ 63), 0⟩ = Except.error "duration out of range" ∧
    check_duration ⟨0, -(2 ^ 31)⟩ = Except.error "duration out of range" := by
  refine ⟨?_, by rfl, by rfl, by rfl, by rfl⟩
  simp only [check_duration, MAX_DURATION_SECONDS, MAX_DURATION_NANOS]
  constructor
  · intro h
    by_cases hs : s.natAbs > 315576000000 <;>
      by_cases hn : n.natAbs > 999999999 <;>
      simp_all
  · intro ⟨hs, hn⟩
    simp only [Bool.or_eq_true, decide_eq_true_eq]
    rw [if_neg]
    simp
    omega

/-- C8: the timestamp range check succeeds iff
`-62135596800 ≤ seconds ≤ 253402300799`, regardless of `nanos` (quantified
unconstrained); `{seconds := 253402300799}` passes and
`{seconds := 253402300800}` fails with a range error. -/
theorem check_timestamp_range_spec (s n : Int) :
    (check_timestamp ⟨s, n⟩ = Except.ok () ↔
      -62135596800 ≤ s ∧ s ≤ 253402300799) ∧
    check_timestamp ⟨253402300799, 0⟩ = Except.ok () ∧
    check_timestamp ⟨253402300800, 0⟩ = Except.error "timestamp out of range" := by
  refine ⟨?_, by rfl, by rfl⟩
  simp only [check_timestamp, MIN_TIMESTAMP_SECONDS, MAX_TIMESTAMP_SECONDS]
  constructor
  · intro h
    by_cases hlo : s < -62135596800 <;> by_cases hhi : (253402300799 : Int) < s <;>
      simp_all
  · intro ⟨hlo, hhi⟩
    rw [if_neg]
    simp
    omega

/-! ## Ordered-map lemmas -/

theorem lookupKey_insertKey_self {α : Type} (k : Nat) (v : α) (l : List (Nat × α)) :
    lookupKey k (insertKey k v l) = some v := by
  induction l with
  | nil => simp [insertKey, lookupKey]
  | cons hd tl ih =>
    obtain ⟨k', v'⟩ := hd
    simp only [insertKey]
    by_cases h1 : k < k'
    · rw [if_pos h1]; simp [lookupKey]
    · rw [if_neg h1]
      by_cases h2 : k = k'
      · rw [if_pos h2]; simp [lookupKey]
      · rw [if_neg h2]
        simp only [lookupKey]
        rw [if_neg fun h => h2 h.symm]
        exact ih

theorem lookupKey_insertKey_ne {α : Type} (k m : Nat) (v : α) (l : List (Nat × α))
    (hm : m ≠ k) : lookupKey m (insertKey k v l) = lookupKey m l := by
  induction l with
  | nil =>
    simp only [insertKey, lookupKey]
    rw [if_neg fun h => hm h.symm]
  | cons hd tl ih =>
    obtain ⟨k', v'⟩ := hd
    simp only [insertKey]
    by_cases h1 : k < k'
    · rw [if_pos h1]
      simp only [lookupKey]
      rw [if_neg fun h => hm h.symm]
    · rw [if_neg h1]
      by_cases h2 : k = k'
      · subst h2
        rw [if_pos rfl]
        simp only [lookupKey]
        rw [if_neg fun h => hm h.symm, if_neg fun h => hm h.symm]
      · rw [if_neg h2]
        simp only [lookupKey]
        by_cases h3 : k' = m
        · rw [if_pos h3, if_pos h3]
        · rw [if_neg h3, if_neg h3]
          exact ih

theorem lookupKey_eraseKey_self {α : Type} (k : Nat) (l : List (Nat × α)) :
    lookupKey k (eraseKey k l) = none := by
  induction l with
  | nil => rfl
  | cons hd tl ih =>
    obtain ⟨k', v'⟩ := hd
    simp only [eraseKey, List.filter_cons] at ih ⊢
    by_cases h : k' = k
    · subst h
      simp only [bne_self_eq_false, if_false, Bool.false_eq_true]
      exact ih
    · have hb : (k' != k) = true := by simp [h]
      simp only [hb, if_true]
      simp only [lookupKey]
      rw [if_neg h]
      exact ih

theorem lookupKey_eraseKey_ne {α : Type} (k m : Nat) (l : List (Nat × α)) (hm : m ≠ k) :
    lookupKey m (eraseKey k l) = lookupKey m l := by
  induction l with
  | nil => rfl
  | cons hd tl ih =>
    obtain ⟨k', v'⟩ := hd
    simp only [eraseKey, List.filter_cons] at ih ⊢
    by_cases h : k' = k
    · subst h
      simp only [bne_self_eq_false, if_false, Bool.false_eq_true]
      rw [ih]
      simp only [lookupKey]
      rw [if_neg fun h => hm h.symm]
    · have hb : (k' != k) = true := by simp [h]
      simp only [hb, if_true]
      simp only [lookupKey]
      by_cases h2 : k' = m
      · rw [if_pos h2, if_pos h2]
      · rw [if_neg h2, if_neg h2]
        exact ih

theorem lookupKey_eraseKey_none {α : Type} (k m : Nat) (l : List (Nat × α))
    (h : lookupKey m l = none) : lookupKey m (eraseKey k l) = none := by
  by_cases hm : m = k
  · subst hm; exact lookupKey_eraseKey_self m l
  · rw [lookupKey_eraseKey_ne k m l hm]; exact h

/-- The fold performed by `clear_oneof_fields` preserves absence of a key. -/
theorem clearFold_preserves_none {α : Type} (nums : List Nat) (d : Nat)
    (fs : List (Nat × α)) (n : Nat) (h : lookupKey n fs = none) :
    lookupKey n (nums.foldl (fun acc m => if m ≠ d then eraseKey m acc else acc) fs) = none := by
  induction nums generalizing fs with
  | nil => exact h
  | cons m rest ih =>
    simp only [List.foldl]
    apply ih
    by_cases hmd : m ≠ d
    · rw [if_pos hmd]
      exact lookupKey_eraseKey_none m n fs h
    · rw [if_neg hmd]
      exact h

/-- After the `clear_oneof_fields` fold, every listed number other than the
written field's own number is absent. -/
theorem clearFold_lookup_mem {α : Type} (nums : List Nat) (d : Nat)
    (fs : List (Nat × α)) (n : Nat) (hmem : n ∈ nums) (hne : n ≠ d) :
    lookupKey n (nums.foldl (fun acc m => if m ≠ d then eraseKey m acc else acc) fs) = none := by
  induction nums generalizing fs with
  | nil => cases hmem
  | cons m rest ih =>
    simp only [List.foldl]
    rcases List.mem_cons.mp hmem with hnm | hrest
    · subst hnm
      apply clearFold_preserves_none
      rw [if_pos hne]
      exact lookupKey_eraseKey_self n fs
    · exact ih _ hrest

/-- The `clear_oneof_fields` fold does not touch a key that is not listed, nor
the written field's own number. -/
theorem clearFold_lookup_other {α : Type} (nums : List Nat) (d : Nat)
    (fs : List (Nat × α)) (n : Nat) (h : n ∉ nums ∨ n = d) :
    lookupKey n (nums.foldl (fun acc m => if m ≠ d then eraseKey m acc else acc) fs) =
      lookupKey n fs := by
  induction nums generalizing fs with
  | nil => rfl
  | cons m rest ih =>
    simp only [List.foldl]
    have hstep : lookupKey n (if m ≠ d then eraseKey m fs else fs) = lookupKey n fs := by
      by_cases hmd : m ≠ d
      · rw [if_pos hmd]
        apply lookupKey_eraseKey_ne
        rcases h with hnot | hnd
        · exact fun he => hnot (he ▸ List.mem_cons_self m rest)
        · exact fun he => hmd (by rw [← he, hnd])
      · rw [if_neg hmd]
    rcases h with hnot | hnd
    · rw [ih _ (Or.inl fun hr => hnot (List.mem_cons_of_mem m hr)), hstep]
    · rw [ih _ (Or.inr hnd), hstep]

namespace DynamicMessageFieldSet

/-- `clear_oneof_fields` never removes the written descriptor's own entry. -/
theorem lookup_clear_oneof_self {V U : Type} (s : DynamicMessageFieldSet V U)
    (desc : FieldDescriptorLike V) :
    lookupKey desc.number (clear_oneof_fields s desc).fields = lookupKey desc.number s.fields := by
  unfold clear_oneof_fields
  cases hG : desc.containing_oneof with
  | none => rfl
  | some G =>
    dsimp only
    exact clearFold_lookup_other G.field_numbers desc.number s.fields desc.number (Or.inr rfl)

/-- `clear_oneof_fields` removes every sibling member of the containing oneof. -/
theorem lookup_clear_oneof_sibling {V U : Type} (s : DynamicMessageFieldSet V U)
    (desc : FieldDescriptorLike V) (G : OneofDescriptorRef) (n : Nat)
    (hG : desc.containing_oneof = some G) (hmem : n ∈ G.field_numbers)
    (hne : n ≠ desc.number) :
    lookupKey n (clear_oneof_fields s desc).fields = none := by
  unfold clear_oneof_fields
  rw [hG]
  dsimp only
  exact clearFold_lookup_mem G.field_numbers desc.number s.fields n hmem hne

/-- `clear_oneof_fields` leaves any number that is not a sibling member
unchanged. -/
theorem lookup_clear_oneof_other {V U : Type} (s : DynamicMessageFieldSet V U)
    (desc : FieldDescriptorLike V) (n : Nat)
    (h : ∀ G, desc.containing_oneof = some G → (n ∉ G.field_numbers ∨ n = desc.number)) :
    lookupKey n (clear_oneof_fields s desc).fields = lookupKey n s.fields := by
  unfold clear_oneof_fields
  cases hG : desc.containing_oneof with
  | none => rfl
  | some G =>
    dsimp only
    exact clearFold_lookup_other G.field_numbers desc.number s.fields n (h G hG)

end DynamicMessageFieldSet

open DynamicMessageFieldSet in
/-- C1: for a oneof group `G`, member descriptors `Fi`, `Fj` with `Fj ≠ Fi`,
explicit presence on `Fi` and a value `v` valid for `Fi`: after `set(Fi, v)`,
`has(Fj) = false` and `has(Fi) = true`, and at most one member of `G` holds a
`Decoded` entry (every decoded member number equals `Fi`'s). -/
theorem set_oneof_exclusive {V U : Type} (s : DynamicMessageFieldSet V U)
    (G : OneofDescriptorRef) (Fi Fj : FieldDescriptorLike V) (v : V)
    (hGi : Fi.containing_oneof = some G)
    (hj : Fj.number ∈ G.field_numbers)
    (hne : Fj.number ≠ Fi.number)
    (hpres : Fi.supports_presence = true)
    (_hvalid : Fi.is_valid v = true) :
    (s.set Fi v).has Fj = false ∧ (s.set Fi v).has Fi = true ∧
    ∀ n ∈ G.field_numbers, (s.set Fi v).decodedAt n = true → n = Fi.number := by
  have hfields : (s.set Fi v).fields =
      insertKey Fi.number (ValueOrUnknown.value v) (clear_oneof_fields s Fi).fields := rfl
  have hsib : ∀ n, n ∈ G.field_numbers → n ≠ Fi.number →
      lookupKey n (s.set Fi v).fields = none := by
    intro n hn hnn
    rw [hfields, lookupKey_insertKey_ne _ _ _ _ hnn]
    exact lookup_clear_oneof_sibling s Fi G n hGi hn hnn
  refine ⟨?_, ?_, ?_⟩
  · simp only [has, get_value, hsib Fj.number hj hne]
  · have hself : lookupKey Fi.number (s.set Fi v).fields = some (ValueOrUnknown.value v) := by
      rw [hfields]; exact lookupKey_insertKey_self _ _ _
    simp only [has, get_value, hself, FieldDescriptorLike.has, hpres, Bool.true_or]
  · intro n hn hdec
    by_contra hnn
    rw [decodedAt, hsib n hn hnn] at hdec
    cases hdec

/-- Witness for C1 at a concrete store, oneof `{1, 2}` and value 4. -/
theorem set_oneof_exclusive_witness :
    (exF1.containing_oneof = some exOneof ∧
      exF2.number ∈ exOneof.field_numbers ∧
      exF2.number ≠ exF1.number ∧
      exF1.supports_presence = true ∧
      exF1.is_valid 4 = true) ∧
    ((exStore.set exF1 4).has exF2 = false ∧ (exStore.set exF1 4).has exF1 = true ∧
      ∀ n ∈ exOneof.field_numbers, (exStore.set exF1 4).decodedAt n = true → n = exF1.number) :=
  ⟨⟨rfl, by decide, by decide, rfl, rfl⟩,
    set_oneof_exclusive exStore exOneof exF1 exF2 4 rfl (by decide) (by decide) rfl rfl⟩

open DynamicMessageFieldSet in
/-- C2 counterexample: at a store whose entry at number 1 is
`RawUnknown([7])`, calling `get` does NOT transition the entry to `Decoded`:
`get` borrows the store immutably (embedded with no store output, so the
post-call store is the argument itself), it reads the field as its default,
and the entry at 1 is still the `RawUnknown` list. -/
theorem get_leaves_raw_unknown :
    exStoreRaw.get exDescRaw = 0 ∧
    exStoreRaw.decodedAt 1 = false ∧
    lookupKey 1 exStoreRaw.fields = some (ValueOrUnknown.unknown [7]) :=
  ⟨rfl, rfl, rfl⟩

open DynamicMessageFieldSet in
/-- C2 (amended): for a descriptor whose number holds a `RawUnknown` entry,
`set` and `get_mut` transition the entry to `Decoded` and the raw entries are
discarded (`set` stores the written value; `get_mut` installs the default and
hands back a handle to it). -/
theorem raw_unknown_decoded_on_write {V U : Type} (s : DynamicMessageFieldSet V U)
    (desc : FieldDescriptorLike V) (v : V) (us : List U)
    (h : lookupKey desc.number s.fields = some (ValueOrUnknown.unknown us)) :
    lookupKey desc.number (s.set desc v).fields = some (ValueOrUnknown.value v) ∧
    lookupKey desc.number (s.get_mut desc).1.fields =
      some (ValueOrUnknown.value desc.default_value) ∧
    (s.get_mut desc).2 = desc.default_value := by
  have hclear : lookupKey desc.number (clear_oneof_fields s desc).fields =
      some (ValueOrUnknown.unknown us) := by
    rw [lookup_clear_oneof_self]; exact h
  refine ⟨?_, ?_, ?_⟩
  · show lookupKey desc.number
      (insertKey desc.number (ValueOrUnknown.value v) (clear_oneof_fields s desc).fields) =
        some (ValueOrUnknown.value v)
    exact lookupKey_insertKey_self _ _ _
  · simp only [get_mut, hclear]
    exact lookupKey_insertKey_self _ _ _
  · simp only [get_mut, hclear]

/-- Witness for the amended C2 at the store `{1 ↦ RawUnknown([7])}`. -/
theorem raw_unknown_decoded_on_write_witness :
    lookupKey 1 exStoreRaw.fields = some (ValueOrUnknown.unknown [7]) ∧
    (lookupKey 1 (exStoreRaw.set exDescRaw 9).fields = some (ValueOrUnknown.value 9) ∧
      lookupKey 1 (exStoreRaw.get_mut exDescRaw).1.fields = some (ValueOrUnknown.value 0) ∧
      (exStoreRaw.get_mut exDescRaw).2 = 0) :=
  ⟨rfl, raw_unknown_decoded_on_write exStoreRaw exDescRaw 9 [7] rfl⟩

open DynamicMessageFieldSet in
/-- C4: `add_unknown(n, e)` panics (`none`) iff a `Decoded` entry occupies
`n`; otherwise it appends `e` at the end of the raw list at `n` (a one-element
list when the entry was absent) and leaves every other number unchanged. -/
theorem add_unknown_spec {V U : Type} (s : DynamicMessageFieldSet V U) (n : Nat) (u : U)
    (m : Nat) (hm : m ≠ n) :
    (s.add_unknown n u = none ↔ s.decodedAt n = true) ∧
    ∀ s', s.add_unknown n u = some s' →
      lookupKey n s'.fields = some (ValueOrUnknown.unknown (s.rawAt n ++ [u])) ∧
      lookupKey m s'.fields = lookupKey m s.fields := by
  cases hl : lookupKey n s.fields with
  | none =>
    refine ⟨?_, ?_⟩
    · simp [add_unknown, decodedAt, hl]
    · intro s' hs'
      simp only [add_unknown, hl] at hs'
      injection hs' with hs'
      subst hs'
      refine ⟨?_, ?_⟩
      · rw [lookupKey_insertKey_self]
        simp [rawAt, hl]
      · exact lookupKey_insertKey_ne _ _ _ _ hm
  | some e =>
    cases e with
    | value w =>
      refine ⟨?_, ?_⟩
      · simp [add_unknown, decodedAt, hl]
      · intro s' hs'
        simp only [add_unknown, hl] at hs'
        exact Option.noConfusion hs'
    | unknown us =>
      refine ⟨?_, ?_⟩
      · simp [add_unknown, decodedAt, hl]
      · intro s' hs'
        simp only [add_unknown, hl] at hs'
        injection hs' with hs'
        subst hs'
        refine ⟨?_, ?_⟩
        · rw [lookupKey_insertKey_self]
          simp [rawAt, hl]
        · exact lookupKey_insertKey_ne _ _ _ _ hm

/-- Witness for C4: appending raw entry 11 at the already-raw number 7 of the
concrete store, and at the fresh number 9; number 2 is unaffected. -/
theorem add_unknown_spec_witness :
    (2 : Nat) ≠ 7 ∧
    ((exStore.add_unknown 7 11 = none ↔ exStore.decodedAt 7 = true) ∧
      ∀ s', exStore.add_unknown 7 11 = some s' →
        lookupKey 7 s'.fields = some (ValueOrUnknown.unknown (exStore.rawAt 7 ++ [11])) ∧
        lookupKey 2 s'.fields = lookupKey 2 exStore.fields) :=
  ⟨by decide, add_unknown_spec exStore 7 11 2 (by decide)⟩

open DynamicMessageFieldSet in
/-- C5: `get_mut(desc)` clears the sibling members of `desc`'s containing
oneof, leaves a `Decoded` slot at `desc.number()` that the returned handle
points at, keeps an existing `Decoded` value, initializes the slot to the
default when the entry was absent or `RawUnknown`, and afterwards `has(desc)`
holds whenever `desc` has explicit presence. -/
theorem get_mut_spec {V U : Type} (s : DynamicMessageFieldSet V U)
    (desc : FieldDescriptorLike V) :
    (∀ G, desc.containing_oneof = some G → ∀ n ∈ G.field_numbers, n ≠ desc.number →
      lookupKey n (s.get_mut desc).1.fields = none) ∧
    lookupKey desc.number (s.get_mut desc).1.fields =
      some (ValueOrUnknown.value (s.get_mut desc).2) ∧
    (∀ w, lookupKey desc.number s.fields = some (ValueOrUnknown.value w) →
      (s.get_mut desc).2 = w) ∧
    (s.decodedAt desc.number = false → (s.get_mut desc).2 = desc.default_value) ∧
    (desc.supports_presence = true → (s.get_mut desc).1.has desc = true) := by
  have hpre : lookupKey desc.number (clear_oneof_fields s desc).fields =
      lookupKey desc.number s.fields := lookup_clear_oneof_self s desc
  have hslot : lookupKey desc.number (s.get_mut desc).1.fields =
      some (ValueOrUnknown.value (s.get_mut desc).2) := by
    cases hl : lookupKey desc.number s.fields with
    | none =>
      simp only [get_mut, hpre.trans hl]
      exact lookupKey_insertKey_self _ _ _
    | some e =>
      cases e with
      | value w =>
        simp only [get_mut, hpre.trans hl]
      | unknown us =>
        simp only [get_mut, hpre.trans hl]
        exact lookupKey_insertKey_self _ _ _
  have hsib : ∀ G, desc.containing_oneof = some G → ∀ n ∈ G.field_numbers,
      n ≠ desc.number → lookupKey n (s.get_mut desc).1.fields = none := by
    intro G hG n hn hnn
    have hcleared : lookupKey n (clear_oneof_fields s desc).fields = none :=
      lookup_clear_oneof_sibling s desc G n hG hn hnn
    cases hl : lookupKey desc.number s.fields with
    | none =>
      simp only [get_mut, hpre.trans hl]
      rw [lookupKey_insertKey_ne _ _ _ _ hnn]
      exact hcleared
    | some e =>
      cases e with
      | value w => simp only [get_mut, hpre.trans hl]; exact hcleared
      | unknown us =>
        simp only [get_mut, hpre.trans hl]
        rw [lookupKey_insertKey_ne _ _ _ _ hnn]
        exact hcleared
  refine ⟨hsib, hslot, ?_, ?_, ?_⟩
  · intro w hw
    simp only [get_mut, hpre.trans hw]
  · intro hdec
    cases hl : lookupKey desc.number s.fields with
    | none => simp only [get_mut, hpre.trans hl]
    | some e =>
      cases e with
      | value w => rw [decodedAt, hl] at hdec; cases hdec
      | unknown us => simp only [get_mut, hpre.trans hl]
  · intro hp
    simp only [has, get_value, hslot, FieldDescriptorLike.has, hp, Bool.true_or]

/-- Witness for C5: `get_mut` with the oneof member `exF1` on the concrete
store (which holds its sibling 2 decoded). -/
theorem get_mut_spec_witness :
    (∀ G, exF1.containing_oneof = some G → ∀ n ∈ G.field_numbers, n ≠ exF1.number →
      lookupKey n (exStore.get_mut exF1).1.fields = none) ∧
    lookupKey exF1.number (exStore.get_mut exF1).1.fields =
      some (ValueOrUnknown.value (exStore.get_mut exF1).2) ∧
    (∀ w, lookupKey exF1.number exStore.fields = some (ValueOrUnknown.value w) →
      (exStore.get_mut exF1).2 = w) ∧
    (exStore.decodedAt exF1.number = false → (exStore.get_mut exF1).2 = exF1.default_value) ∧
    (exF1.supports_presence = true → (exStore.get_mut exF1).1.has exF1 = true) :=
  get_mut_spec exStore exF1

open DynamicMessageFieldSet in
/-- C6: for a descriptor `D` with implicit presence, after `clear(D)` the
entry at `D.number()` is removed (whether `Decoded` or `RawUnknown`),
`get(D)` returns the default value and `has(D)` is false. -/
theorem clear_implicit_spec {V U : Type} (s : DynamicMessageFieldSet V U)
    (D : FieldDescriptorLike V) (_himp : D.supports_presence = false) :
    (s.clear D).get D = D.default_value ∧ (s.clear D).has D = false ∧
    lookupKey D.number (s.clear D).fields = none := by
  have h : lookupKey D.number (s.clear D).fields = none :=
    lookupKey_eraseKey_self D.number s.fields
  refine ⟨?_, ?_, h⟩ <;>
    simp [DynamicMessageFieldSet.get, DynamicMessageFieldSet.has,
      DynamicMessageFieldSet.get_value, h]

/-- Witness for C6: clearing the implicit-presence field 3 of the concrete
store (which holds a decoded value there). -/
theorem clear_implicit_spec_witness :
    exF3.supports_presence = false ∧
    ((exStore.clear exF3).get exF3 = exF3.default_value ∧
      (exStore.clear exF3).has exF3 = false ∧
      lookupKey exF3.number (exStore.clear exF3).fields = none) :=
  ⟨rfl, clear_implicit_spec exStore exF3 rfl⟩

open DynamicMessageFieldSet in
/-- C9: a `RawUnknown` entry is invisible to the read operations: for any
descriptor over that number (explicit presence or not), `has` is false and
`get` returns the descriptor's default value. -/
theorem raw_unknown_reads_as_absent {V U : Type} (s : DynamicMessageFieldSet V U)
    (desc : FieldDescriptorLike V) (us : List U)
    (h : lookupKey desc.number s.fields = some (ValueOrUnknown.unknown us)) :
    s.has desc = false ∧ s.get desc = desc.default_value := by
  constructor <;>
    simp [DynamicMessageFieldSet.has, DynamicMessageFieldSet.get,
      DynamicMessageFieldSet.get_value, h]

/-- Witness for C9 at the raw-only store and an explicit-presence descriptor
for number 1. -/
theorem raw_unknown_reads_as_absent_witness :
    lookupKey 1 exStoreRaw.fields = some (ValueOrUnknown.unknown [7]) ∧
    (exStoreRaw.has exDescRaw = false ∧ exStoreRaw.get exDescRaw = exDescRaw.default_value) :=
  ⟨rfl, raw_unknown_reads_as_absent exStoreRaw exDescRaw [7] rfl⟩

open DynamicMessageFieldSet in
/-- C10: writes through an extension descriptor touch only the extension's
own number: `containing_oneof` of the `FieldDescriptorLike` impl for
extensions is always `None`, so the oneof-clearing step removes nothing and
`set`/`get_mut` leave every other number's entry unchanged. -/
theorem extension_write_frame {V U : Type} (s : DynamicMessageFieldSet V U)
    (E : ExtensionDescriptorRef V) (v : V) (m : Nat) (hm : m ≠ E.number) :
    lookupKey m (s.set E.toFieldDescriptorLike v).fields = lookupKey m s.fields ∧
    lookupKey m (s.get_mut E.toFieldDescriptorLike).1.fields = lookupKey m s.fields := by
  have hclear : clear_oneof_fields s E.toFieldDescriptorLike = s := rfl
  constructor
  · show lookupKey m (insertKey E.number (ValueOrUnknown.value v)
      (clear_oneof_fields s E.toFieldDescriptorLike).fields) = lookupKey m s.fields
    rw [hclear]
    exact lookupKey_insertKey_ne _ _ _ _ hm
  · cases hl : lookupKey E.number s.fields with
    | none =>
      have hl' : lookupKey E.toFieldDescriptorLike.number
          (clear_oneof_fields s E.toFieldDescriptorLike).fields = none := by rw [hclear]; exact hl
      simp only [get_mut, hl']
      rw [hclear]
      exact lookupKey_insertKey_ne _ _ _ _ hm
    | some e =>
      cases e with
      | value w =>
        have hl' : lookupKey E.toFieldDescriptorLike.number
            (clear_oneof_fields s E.toFieldDescriptorLike).fields =
            some (ValueOrUnknown.value w) := by rw [hclear]; exact hl
        simp only [get_mut, hl']
        rw [hclear]
      | unknown us =>
        have hl' : lookupKey E.toFieldDescriptorLike.number
            (clear_oneof_fields s E.toFieldDescriptorLike).fields =
            some (ValueOrUnknown.unknown us) := by rw [hclear]; exact hl
        simp only [get_mut, hl']
        rw [hclear]
        exact lookupKey_insertKey_ne _ _ _ _ hm

/-- Witness for C10: writing extension 5 on the concrete store leaves number
2 untouched. -/
theorem extension_write_frame_witness :
    (2 : Nat) ≠ exExt.number ∧
    (lookupKey 2 (exStore.set exExt.toFieldDescriptorLike 8).fields =
        lookupKey 2 exStore.fields ∧
      lookupKey 2 (exStore.get_mut exExt.toFieldDescriptorLike).1.fields =
        lookupKey 2 exStore.fields) :=
  ⟨by decide, extension_write_frame exStore exExt 8 2 (by decide)⟩

/-! ## Iteration lemmas (towards C3) -/

theorem MessageDescriptorRef.get_field_number {V : Type} (m : MessageDescriptorRef V)
    (n : Nat) (d : FieldDescriptorLike V) (h : m.get_field n = some d) : d.number = n := by
  have hp := List.find?_some h
  exact eq_of_beq hp

theorem MessageDescriptorRef.get_extension_number {V : Type} (m : MessageDescriptorRef V)
    (n : Nat) (e : ExtensionDescriptorRef V) (h : m.get_extension n = some e) :
    e.number = n := by
  have hp := List.find?_some h
  exact eq_of_beq hp

theorem iterEntry_none_of {V U : Type} (msg : MessageDescriptorRef V) (n : Nat) (v : V)
    (hf : msg.get_field n = none) (hex : msg.get_extension n = none) :
    iterEntry msg n (ValueOrUnknown.value v : ValueOrUnknown V U) = none := by
  simp [iterEntry, hf, hex]

theorem iterEntry_eq_none_elim {V U : Type} (msg : MessageDescriptorRef V) (n : Nat)
    (e : ValueOrUnknown V U) (h : iterEntry msg n e = none) :
    ∃ v, e = ValueOrUnknown.value v ∧ msg.get_field n = none ∧
      msg.get_extension n = none := by
  cases e with
  | unknown us => exact Option.noConfusion h
  | value v =>
    cases hf : msg.get_field n with
    | some d =>
      exfalso
      by_cases hh : d.has v = true <;> simp [iterEntry, hf, hh] at h
    | none =>
      cases hex : msg.get_extension n with
      | some ex =>
        exfalso
        by_cases hh : ex.toFieldDescriptorLike.has v = true <;>
          simp [iterEntry, hf, hex, hh] at h
      | none => exact ⟨v, rfl, rfl, rfl⟩

/-- Complete case analysis of a yielded iteration item. -/
theorem iterItem_eq_some_cases {V U : Type} (msg : MessageDescriptorRef V)
    (p : Nat × ValueOrUnknown V U) (item : ValueAndDescriptor V U)
    (h : iterItem msg p = some item) :
    (∃ v d, item = ValueAndDescriptor.field v d ∧ p.2 = ValueOrUnknown.value v ∧
      msg.get_field p.1 = some d ∧ d.has v = true) ∨
    (∃ v ex, item = ValueAndDescriptor.extension v ex ∧ p.2 = ValueOrUnknown.value v ∧
      msg.get_field p.1 = none ∧ msg.get_extension p.1 = some ex ∧
      ex.toFieldDescriptorLike.has v = true) ∨
    (∃ us, item = ValueAndDescriptor.unknown p.1 us ∧
      p.2 = ValueOrUnknown.unknown us) := by
  obtain ⟨n, e⟩ := p
  cases e with
  | unknown us =>
    right; right
    replace h : some (ValueAndDescriptor.unknown n us) = some item := h
    injection h with h
    exact ⟨us, h.symm, rfl⟩
  | value v =>
    cases hf : msg.get_field n with
    | some d =>
      by_cases hh : d.has v = true
      · left
        have hcomp : iterItem msg (n, (ValueOrUnknown.value v : ValueOrUnknown V U)) =
            some (ValueAndDescriptor.field v d) := by
          simp [iterItem, iterEntry, hf, hh]
        rw [hcomp] at h
        injection h with h
        exact ⟨v, d, h.symm, rfl, rfl, hh⟩
      · exfalso
        have hcomp : iterItem msg (n, (ValueOrUnknown.value v : ValueOrUnknown V U)) =
            none := by
          simp [iterItem, iterEntry, hf, hh]
        rw [hcomp] at h
        exact Option.noConfusion h
    | none =>
      cases hex : msg.get_extension n with
      | some ex =>
        by_cases hh : ex.toFieldDescriptorLike.has v = true
        · right; left
          have hcomp : iterItem msg (n, (ValueOrUnknown.value v : ValueOrUnknown V U)) =
              some (ValueAndDescriptor.extension v ex) := by
            simp [iterItem, iterEntry, hf, hex, hh]
          rw [hcomp] at h
          injection h with h
          exact ⟨v, ex, h.symm, rfl, rfl, rfl, hh⟩
        · exfalso
          have hcomp : iterItem msg (n, (ValueOrUnknown.value v : ValueOrUnknown V U)) =
              none := by
            simp [iterItem, iterEntry, hf, hex, hh]
          rw [hcomp] at h
          exact Option.noConfusion h
      | none =>
        exfalso
        have hcomp : iterItem msg (n, (ValueOrUnknown.value v : ValueOrUnknown V U)) =
            none := by
          simp [iterItem, iterEntry, hf, hex]
        rw [hcomp] at h
        exact Option.noConfusion h

theorem iterItem_entryNumber {V U : Type} (msg : MessageDescriptorRef V)
    (p : Nat × ValueOrUnknown V U) (item : ValueAndDescriptor V U)
    (h : iterItem msg p = some item) : item.entryNumber = p.1 := by
  rcases iterItem_eq_some_cases msg p item h with
    ⟨v, d, rfl, he, hf, hh⟩ | ⟨v, ex, rfl, he, hf, hex, hh⟩ | ⟨us, rfl, he⟩
  · exact msg.get_field_number p.1 d hf
  · exact msg.get_extension_number p.1 ex hex
  · rfl

theorem iterAux_eq_none_iff {V U : Type} (msg : MessageDescriptorRef V)
    (fl : List (Nat × ValueOrUnknown V U)) :
    DynamicMessageFieldSet.iterAux msg fl = none ↔
      ∃ n v, (n, ValueOrUnknown.value v) ∈ fl ∧ msg.get_field n = none ∧
        msg.get_extension n = none := by
  induction fl with
  | nil => simp [DynamicMessageFieldSet.iterAux]
  | cons p rest ih =>
    obtain ⟨n0, e0⟩ := p
    constructor
    · intro h
      simp only [DynamicMessageFieldSet.iterAux] at h
      cases hE : iterEntry msg n0 e0 with
      | none =>
        obtain ⟨v, he, hf, hex⟩ := iterEntry_eq_none_elim msg n0 e0 hE
        subst he
        exact ⟨n0, v, List.mem_cons_self _ _, hf, hex⟩
      | some o =>
        rw [hE] at h
        cases o with
        | none =>
          replace h : DynamicMessageFieldSet.iterAux msg rest = none := h
          obtain ⟨n, v, hm, hf, hex⟩ := ih.mp h
          exact ⟨n, v, List.mem_cons_of_mem _ hm, hf, hex⟩
        | some item =>
          replace h : (DynamicMessageFieldSet.iterAux msg rest).map (item :: ·) = none := h
          rw [Option.map_eq_none'] at h
          obtain ⟨n, v, hm, hf, hex⟩ := ih.mp h
          exact ⟨n, v, List.mem_cons_of_mem _ hm, hf, hex⟩
    · rintro ⟨n, v, hm, hf, hex⟩
      rcases List.mem_cons.mp hm with heq | hm2
      · injection heq with h1 h2
        subst h1
        subst h2
        simp only [DynamicMessageFieldSet.iterAux]
        rw [iterEntry_none_of msg n v hf hex]
      · have hrest : DynamicMessageFieldSet.iterAux msg rest = none :=
          ih.mpr ⟨n, v, hm2, hf, hex⟩
        simp only [DynamicMessageFieldSet.iterAux]
        cases hE : iterEntry msg n0 e0 with
        | none => rfl
        | some o =>
          cases o with
          | none => exact hrest
          | some item =>
            show (DynamicMessageFieldSet.iterAux msg rest).map (item :: ·) = none
            rw [hrest]
            rfl

theorem iterAux_eq_some_eq_filterMap {V U : Type} (msg : MessageDescriptorRef V)
    (fl : List (Nat × ValueOrUnknown V U)) (l : List (ValueAndDescriptor V U))
    (h : DynamicMessageFieldSet.iterAux msg fl = some l) :
    l = fl.filterMap (iterItem msg) := by
  induction fl generalizing l with
  | nil =>
    replace h : some ([] : List (ValueAndDescriptor V U)) = some l := h
    injection h with h
    rw [← h]
    rfl
  | cons p rest ih =>
    obtain ⟨n0, e0⟩ := p
    simp only [DynamicMessageFieldSet.iterAux] at h
    cases hE : iterEntry msg n0 e0 with
    | none =>
      rw [hE] at h
      exact Option.noConfusion h
    | some o =>
      rw [hE] at h
      cases o with
      | none =>
        replace h : DynamicMessageFieldSet.iterAux msg rest = some l := h
        have hit : iterItem msg (n0, e0) = none := by
          simp [iterItem, hE]
        rw [List.filterMap_cons_none hit]
        exact ih l h
      | some item =>
        replace h : (DynamicMessageFieldSet.iterAux msg rest).map (item :: ·) = some l := h
        cases hrest : DynamicMessageFieldSet.iterAux msg rest with
        | none =>
          rw [hrest] at h
          exact Option.noConfusion h
        | some l' =>
          rw [hrest] at h
          simp only [Option.map_some'] at h
          injection h with h
          subst h
          have hit : iterItem msg (n0, e0) = some item := by
            simp [iterItem, hE]
          rw [List.filterMap_cons_some hit]
          rw [ih l' hrest]

theorem filterMap_iterItem_number_sublist {V U : Type} (msg : MessageDescriptorRef V)
    (fl : List (Nat × ValueOrUnknown V U)) :
    List.Sublist ((fl.filterMap (iterItem msg)).map ValueAndDescriptor.entryNumber)
      (fl.map Prod.fst) := by
  induction fl with
  | nil => simp
  | cons p rest ih =>
    cases hit : iterItem msg p with
    | none =>
      rw [List.filterMap_cons_none hit, List.map_cons]
      exact ih.cons p.1
    | some item =>
      rw [List.filterMap_cons_some hit, List.map_cons, List.map_cons,
        iterItem_entryNumber msg p item hit]
      exact ih.cons₂ p.1

open DynamicMessageFieldSet in
/-- C3: with the store's keys strictly ascending (the `BTreeMap` invariant),
`iter(message)` panics (is `none`) exactly when some `Decoded` entry's number
matches neither a declared field nor a known extension; a successful
iteration yields items in strictly ascending field-number order, containing
exactly: one `(value, field-descriptor)` item per `Decoded` entry at a
declared field number whose `has` predicate holds, one
`(value, extension-descriptor)` item likewise for extension numbers not
declared as fields, and one `(number, raw-entries)` item per `RawUnknown`
entry.  `iter` takes the store by shared reference (embedded as a function
with no store output), so iteration performs no mutation. -/
theorem iter_spec {V U : Type} (s : DynamicMessageFieldSet V U) (msg : MessageDescriptorRef V)
    (hsorted : sortedKeys s.fields) :
    (s.iter msg = none ↔ ∃ n v, (n, ValueOrUnknown.value v) ∈ s.fields ∧
        msg.get_field n = none ∧ msg.get_extension n = none) ∧
    ∀ l, s.iter msg = some l →
      (l.map ValueAndDescriptor.entryNumber).Pairwise (· < ·) ∧
      (∀ n us, ValueAndDescriptor.unknown n us ∈ l ↔
        (n, ValueOrUnknown.unknown us) ∈ s.fields) ∧
      (∀ v d, ValueAndDescriptor.field v d ∈ l ↔
        (d.number, ValueOrUnknown.value v) ∈ s.fields ∧ msg.get_field d.number = some d ∧
          d.has v = true) ∧
      (∀ v e, ValueAndDescriptor.extension v e ∈ l ↔
        (e.number, ValueOrUnknown.value v) ∈ s.fields ∧ msg.get_field e.number = none ∧
          msg.get_extension e.number = some e ∧ e.toFieldDescriptorLike.has v = true) := by
  constructor
  · exact iterAux_eq_none_iff msg s.fields
  · intro l hl
    have hfm := iterAux_eq_some_eq_filterMap msg s.fields l hl
    subst hfm
    refine ⟨?_, ?_, ?_, ?_⟩
    · have hsub := filterMap_iterItem_number_sublist msg s.fields
      have hp : (s.fields.map Prod.fst).Pairwise (· < ·) := List.pairwise_map.mpr hsorted
      exact hp.sublist hsub
    · intro n us
      rw [List.mem_filterMap]
      constructor
      · rintro ⟨⟨p1, p2⟩, hp, hit⟩
        rcases iterItem_eq_some_cases msg _ _ hit with
          ⟨v, d, hitem, -, -, -⟩ | ⟨v, ex, hitem, -, -, -, -⟩ | ⟨us', hitem, he⟩
        · exact absurd hitem (by simp)
        · exact absurd hitem (by simp)
        · injection hitem with h1 h2
          subst h1
          subst h2
          dsimp only at he
          subst he
          exact hp
      · intro hm
        exact ⟨(n, ValueOrUnknown.unknown us), hm, rfl⟩
    · intro v d
      rw [List.mem_filterMap]
      constructor
      · rintro ⟨⟨p1, p2⟩, hp, hit⟩
        rcases iterItem_eq_some_cases msg _ _ hit with
          ⟨v', d', hitem, he, hf, hh⟩ | ⟨v', ex, hitem, -, -, -, -⟩ | ⟨us, hitem, -⟩
        · injection hitem with h1 h2
          subst h1
          subst h2
          dsimp only at he hf hh
          have hnum : d.number = p1 := msg.get_field_number p1 d hf
          subst he
          rw [hnum]
          exact ⟨hp, hf, hh⟩
        · exact absurd hitem (by simp)
        · exact absurd hitem (by simp)
      · rintro ⟨hm, hf, hh⟩
        refine ⟨(d.number, ValueOrUnknown.value v), hm, ?_⟩
        simp [iterItem, iterEntry, hf, hh]
    · intro v e
      rw [List.mem_filterMap]
      constructor
      · rintro ⟨⟨p1, p2⟩, hp, hit⟩
        rcases iterItem_eq_some_cases msg _ _ hit with
          ⟨v', d', hitem, -, -, -⟩ | ⟨v', ex, hitem, he, hf, hex, hh⟩ | ⟨us, hitem, -⟩
        · exact absurd hitem (by simp)
        · injection hitem with h1 h2
          subst h1
          subst h2
          dsimp only at he hf hex hh
          have hnum : e.number = p1 := msg.get_extension_number p1 e hex
          subst he
          rw [hnum]
          exact ⟨hp, hf, hex, hh⟩
        · exact absurd hitem (by simp)
      · rintro ⟨hm, hf, hex, hh⟩
        refine ⟨(e.number, ValueOrUnknown.value v), hm, ?_⟩
        simp [iterItem, iterEntry, hf, hex, hh]

/-- Witness for C3: iterating the concrete store (decoded oneof member 2,
decoded plain field 3, raw entry at 7) against the concrete message
descriptor. -/
theorem iter_spec_witness :
    sortedKeys exStore.fields ∧
    ((exStore.iter exMsg = none ↔ ∃ n v, (n, ValueOrUnknown.value v) ∈ exStore.fields ∧
        exMsg.get_field n = none ∧ exMsg.get_extension n = none) ∧
      ∀ l, exStore.iter exMsg = some l →
        (l.map ValueAndDescriptor.entryNumber).Pairwise (· < ·) ∧
        (∀ n us, ValueAndDescriptor.unknown n us ∈ l ↔
          (n, ValueOrUnknown.unknown us) ∈ exStore.fields) ∧
        (∀ v d, ValueAndDescriptor.field v d ∈ l ↔
          (d.number, ValueOrUnknown.value v) ∈ exStore.fields ∧
            exMsg.get_field d.number = some d ∧ d.has v = true) ∧
        (∀ v e, ValueAndDescriptor.extension v e ∈ l ↔
          (e.number, ValueOrUnknown.value v) ∈ exStore.fields ∧
            exMsg.get_field e.number = none ∧ exMsg.get_extension e.number = some e ∧
            e.toFieldDescriptorLike.has v = true)) :=
  ⟨by decide, iter_spec exStore exMsg (by decide)⟩

end ProstReflect
